import Mathlib

/-!
# EasyMath server: schedule and homework handlers

A shallow embedding of `src/controllers/scheduleController.js` and
`src/controllers/homeworkController.js`.

* A handler is a function from the collection it works on (a list of documents)
  and the request to the response and the collection afterwards.
* The document store acts on the list.  `findById`, `save` and `deleteMany` do not
  fail; `findByIdAndUpdate` rejects an update whose path it cannot follow, and the
  handler then takes its `catch` branch (status 500).
* The clock (`Date.now()`), the identifier the store gives a new document and
  the calendar (`Date.prototype.getDay`) are parameters of the handlers.
* Scalar request fields (identifiers, `duration`, dates, texts) carry primitive
  JavaScript values; `attendance` and `grade` carry primitives or mappings.
  Arrays occur only as `body.ids`.
* A number is given by a decimal numeral and stands for the binary64 value
  nearest to it, as a numeral of a JSON body does.
-/

namespace EasyMath

/-! ## Numbers -/

/-- Number values: `NaN`, the infinities, and the finite binary64 values, written
`mant * 2 ^ exp` with `|mant| < 2 ^ 53`, `-1074 ≤ exp ≤ 971`, the exponent as small as
these bounds allow, and zero written `0 * 2 ^ 0`.  (The sign of zero is not kept.) -/
inductive Numeric where
  | nan
  | negInf
  | posInf
  | fin (mant : Int) (exp : Int)
  deriving DecidableEq, Repr

/-- Unary minus. -/
def Numeric.neg : Numeric → Numeric
  | .nan => .nan
  | .negInf => .posInf
  | .posInf => .negInf
  | .fin m e => .fin (-m) e

/-- Quotient `a / b` rounded to the nearest integer, a tie to the even one. -/
def roundHalfEven (a b : Nat) : Nat :=
  if 2 * (a % b) < b then a / b
  else if b < 2 * (a % b) then a / b + 1
  else if a / b % 2 = 0 then a / b
  else a / b + 1

/-- Position of the leading binary digit of a positive number. -/
def floorLog2 (n : Nat) : Nat :=
  (Nat.toDigits 2 n).length - 1

/-- The integer `e` with `2 ^ e ≤ n / d < 2 ^ (e + 1)`, for positive `n` and `d`. -/
def floorLog2Ratio (n d : Nat) : Int :=
  let e0 : Int := (floorLog2 n : Int) - (floorLog2 d : Int)
  if 0 ≤ e0 then
    if d * 2 ^ e0.toNat ≤ n then e0 else e0 - 1
  else
    if d ≤ n * 2 ^ (-e0).toNat then e0 else e0 - 1

/-- The binary64 value nearest to the positive rational `n / d`, a tie to the even
significand: at most 53 significant bits at a binary exponent from `-1074` up, and
`+Infinity` from `2 ^ 1024 - 2 ^ 970` on. -/
def roundBinary64 (n d : Nat) : Numeric :=
  let e := floorLog2Ratio n d
  let scale : Int := if e - 52 < -1074 then -1074 else e - 52
  let m : Nat :=
    if 0 ≤ scale then roundHalfEven n (d * 2 ^ scale.toNat)
    else roundHalfEven (n * 2 ^ (-scale).toNat) d
  if m = 0 then .fin 0 0
  else if m = 2 ^ 53 then (if 971 < scale + 1 then .posInf else .fin (2 ^ 52) (scale + 1))
  else if 971 < scale then .posInf
  else .fin m scale

/-- The Number that the decimal numeral `mant * 10 ^ exp` denotes.  A numeral of
magnitude `10 ^ 400` or more denotes an infinity and one below `10 ^ (-400)` denotes zero;
these two cases are answered without forming the power of ten. -/
def decimalToNumber (mant exp : Int) : Numeric :=
  if mant = 0 then .fin 0 0
  else
    let size : Int := exp + ((Nat.toDigits 10 mant.natAbs).length : Int)
    let r : Numeric :=
      if 400 < size then .posInf
      else if size < -400 then .fin 0 0
      else if 0 ≤ exp then roundBinary64 (mant.natAbs * 10 ^ exp.toNat) 1
      else roundBinary64 mant.natAbs (10 ^ (-exp).toNat)
    if mant < 0 then r.neg else r

/-- Smallest `j` from the start value on with `d ≤ n * 10 ^ j`. -/
def decimalShift (n d : Nat) : Nat → Nat → Nat
  | 0, j => j
  | fuel + 1, j => if d ≤ n * 10 ^ j then j else decimalShift n d fuel (j + 1)

/-- Decimal position `p` of a positive rational: `10 ^ (p - 1) ≤ num / den < 10 ^ p`. -/
def decimalPosition (num den : Nat) : Int :=
  if den ≤ num then ((Nat.toDigits 10 (num / den)).length : Int)
  else 1 - (decimalShift num den 400 1 : Int)

/-- The two numerals of `k` digits next to `num / den`, and the one among them to print
when either denotes the value `x`: the nearer of the two, the even one on a tie.  The
result is the digit number `s` and the exponent `t` of the numeral `s * 10 ^ t`. -/
def shortestAt (x : Numeric) (num den : Nat) (pos : Int) (k : Nat) : Option (Nat × Int) :=
  let t : Int := pos - k
  let a : Nat := if 0 ≤ t then num else num * 10 ^ (-t).toNat
  let b : Nat := if 0 ≤ t then den * 10 ^ t.toNat else den
  let lo := a / b
  let hi := lo + 1
  let okLo := decide (decimalToNumber lo t = x)
  let okHi := decide (decimalToNumber hi t = x)
  if okLo && okHi then
    if 2 * a < (lo + hi) * b then some (lo, t)
    else if (lo + hi) * b < 2 * a then some (hi, t)
    else if lo % 2 = 0 then some (lo, t) else some (hi, t)
  else if okLo then some (lo, t)
  else if okHi then some (hi, t)
  else none

/-- The shortest numeral that denotes `x`, searched from `k` digits up. -/
def shortestFrom (x : Numeric) (num den : Nat) (pos : Int) : Nat → Nat → Option (Nat × Int)
  | 0, _ => none
  | fuel + 1, k =>
    match shortestAt x num den pos k with
    | some r => some r
    | none => shortestFrom x num den pos fuel (k + 1)

/-- A digit string without its trailing zeros. -/
def stripTrailingZeros (cs : List Char) : List Char :=
  (cs.reverse.dropWhile (fun c => c == '0')).reverse

/-- Number::toString on a positive finite value `mant * 2 ^ exp`: the digits of the
shortest numeral that denotes it, laid out plainly when the decimal point falls within
21 digits or after at most six leading zeros, and in exponent form otherwise. -/
def positiveToString (mant : Nat) (exp : Int) : String :=
  let num : Nat := if 0 ≤ exp then mant * 2 ^ exp.toNat else mant
  let den : Nat := if 0 ≤ exp then 1 else 2 ^ (-exp).toNat
  match shortestFrom (.fin mant exp) num den (decimalPosition num den) 17 1 with
  | none => "NaN"
  | some (s, t) =>
    let all := Nat.toDigits 10 s
    let n : Int := t + all.length
    let ds := stripTrailingZeros all
    let k : Nat := ds.length
    if (k : Int) ≤ n ∧ n ≤ 21 then
      String.mk (ds ++ List.replicate (n.toNat - k) '0')
    else if 0 < n ∧ n ≤ 21 then
      String.mk (ds.take n.toNat ++ ['.'] ++ ds.drop n.toNat)
    else if -6 < n ∧ n ≤ 0 then
      String.mk (['0', '.'] ++ List.replicate (-n).toNat '0' ++ ds)
    else
      let expPart : List Char :=
        ['e', if 0 ≤ n - 1 then '+' else '-'] ++ Nat.toDigits 10 (n - 1).natAbs
      match ds with
      | [] => "NaN"
      | [d] => String.mk ([d] ++ expPart)
      | d :: rest => String.mk ([d, '.'] ++ rest ++ expPart)

/-- Number::toString. -/
def numberToString : Numeric → String
  | .nan => "NaN"
  | .posInf => "Infinity"
  | .negInf => "-Infinity"
  | .fin m e =>
    if m = 0 then "0"
    else if m < 0 then "-" ++ positiveToString m.natAbs e
    else positiveToString m.natAbs e

/-- Comparison of a Number with an integer; `NaN` is below nothing. -/
def Numeric.ltInt : Numeric → Int → Bool
  | .nan, _ => false
  | .negInf, _ => true
  | .posInf, _ => false
  | .fin m e, k =>
    if 0 ≤ e then decide (m * 2 ^ e.toNat < k) else decide (m < k * 2 ^ (-e).toNat)

/-- ToBoolean on a Number: zero and `NaN` are falsy. -/
def Numeric.truthy : Numeric → Bool
  | .nan => false
  | .negInf => true
  | .posInf => true
  | .fin m _ => decide (m ≠ 0)

/-! ## JavaScript values -/

/-- Primitive JavaScript values; `undefined` also stands for an absent field.  The
number `num mant exp` is the one the decimal numeral `mant * 10 ^ exp` denotes. -/
inductive Prim where
  | undefined
  | null
  | bool (b : Bool)
  | num (mant : Int) (exp : Int)
  | nan
  | str (s : String)
  deriving DecidableEq, Repr

/-- Values of a JSON body or of a stored document: a primitive, or a plain object
given by its own properties in insertion order. -/
inductive JSVal where
  | prim (p : Prim)
  | obj (fields : List (String × JSVal))
  deriving Repr

mutual
/-- Equality of values is decidable. -/
def JSVal.decEq : (a b : JSVal) → Decidable (a = b)
  | .prim p, .prim q =>
    if h : p = q then isTrue (by rw [h]) else isFalse (fun e => h (JSVal.prim.inj e))
  | .prim _, .obj _ => isFalse (fun e => JSVal.noConfusion e)
  | .obj _, .prim _ => isFalse (fun e => JSVal.noConfusion e)
  | .obj fs, .obj gs =>
    match JSVal.decEqFields fs gs with
    | isTrue h => isTrue (by rw [h])
    | isFalse h => isFalse (fun e => h (JSVal.obj.inj e))
/-- Equality of property lists is decidable. -/
def JSVal.decEqFields : (a b : List (String × JSVal)) → Decidable (a = b)
  | [], [] => isTrue rfl
  | [], _ :: _ => isFalse (fun e => List.noConfusion e)
  | _ :: _, [] => isFalse (fun e => List.noConfusion e)
  | (k, v) :: fs, (l, w) :: gs =>
    if hk : k = l then
      match JSVal.decEq v w with
      | isTrue hv =>
        match JSVal.decEqFields fs gs with
        | isTrue ht => isTrue (by rw [hk, hv, ht])
        | isFalse ht => isFalse (fun e => ht (List.cons.inj e).2)
      | isFalse hv => isFalse (fun e => hv (Prod.mk.inj (List.cons.inj e).1).2)
    else isFalse (fun e => hk (Prod.mk.inj (List.cons.inj e).1).1)
end

instance : DecidableEq JSVal := JSVal.decEq

/-- ToBoolean on primitives. -/
def Prim.truthy : Prim → Bool
  | .undefined => false
  | .null => false
  | .bool b => b
  | .num m e => (decimalToNumber m e).truthy
  | .nan => false
  | .str s => decide (s ≠ "")

/-- ToBoolean: every object is truthy. -/
def JSVal.truthy : JSVal → Bool
  | .prim p => p.truthy
  | .obj _ => true

/-- The operator `a || b` on primitives. -/
def Prim.orElse (a b : Prim) : Prim :=
  if a.truthy then a else b

/-- The operator `a || b`. -/
def JSVal.orElse (a b : JSVal) : JSVal :=
  if a.truthy then a else b

/-- The test `v !== null && v !== undefined`. -/
def JSVal.notNullish : JSVal → Bool
  | .prim .null => false
  | .prim .undefined => false
  | _ => true

/-! ## Strings and numbers -/

/-- WhiteSpace and LineTerminator code points, as stripped by `parseInt` and by
the conversion of a string to a number. -/
def isStrWhiteSpaceChar (c : Char) : Bool :=
  let n := c.toNat
  decide (n = 9) || decide (n = 10) || decide (n = 11) || decide (n = 12) || decide (n = 13)
    || decide (n = 32) || decide (n = 160) || decide (n = 5760)
    || (decide (8192 ≤ n) && decide (n ≤ 8202))
    || decide (n = 8232) || decide (n = 8233) || decide (n = 8239) || decide (n = 8287)
    || decide (n = 12288) || decide (n = 65279)

/-- Value of a character as a digit in the given radix, if it is one. -/
def digitValue (radix : Nat) (c : Char) : Option Nat :=
  let n := c.toNat
  let v : Option Nat :=
    if 48 ≤ n ∧ n ≤ 57 then some (n - 48)
    else if 97 ≤ n ∧ n ≤ 122 then some (n - 87)
    else if 65 ≤ n ∧ n ≤ 90 then some (n - 55)
    else none
  match v with
  | some d => if d < radix then some d else none
  | none => none

/-- Longest leading run of digits of the radix, with the rest of the input. -/
def spanDigits (radix : Nat) : List Char → List Nat × List Char
  | [] => ([], [])
  | c :: cs =>
    match digitValue radix c with
    | some d => ((spanDigits radix cs).1.cons d, (spanDigits radix cs).2)
    | none => ([], c :: cs)

/-- Number written by a list of digits, most significant first. -/
def digitsValue (radix : Nat) (ds : List Nat) : Nat :=
  ds.foldl (fun acc d => acc * radix + d) 0

/-- The global `parseInt(string)` on a string, radix argument absent: leading white
space is dropped, a sign and a `0x` marker are read, then the longest run of digits;
`NaN` when that run is empty, and otherwise the number that the integer read denotes. -/
def parseIntString (s : String) : Prim :=
  let trimmed := s.toList.dropWhile isStrWhiteSpaceChar
  let signed : Bool × List Char :=
    match trimmed with
    | '-' :: t => (true, t)
    | '+' :: t => (false, t)
    | t => (false, t)
  let based : Nat × List Char :=
    match signed.2 with
    | '0' :: 'x' :: t => (16, t)
    | '0' :: 'X' :: t => (16, t)
    | t => (10, t)
  let ds := (spanDigits based.1 based.2).1
  if ds.isEmpty then .nan
  else if signed.1 then .num (-(digitsValue based.1 ds : Int)) 0
  else .num (digitsValue based.1 ds : Int) 0

/-- ToString on primitives; also ToPropertyKey, which is how `obj[key]` reads its key. -/
def Prim.toJSString : Prim → String
  | .undefined => "undefined"
  | .null => "null"
  | .bool true => "true"
  | .bool false => "false"
  | .num m e => numberToString (decimalToNumber m e)
  | .nan => "NaN"
  | .str s => s

/-- The global `parseInt(value)`: the argument is converted to a string first. -/
def parseInt (v : Prim) : Prim :=
  parseIntString v.toJSString

/-- StrUnsignedDecimalLiteral: `Infinity`, or digits with an optional fraction and an
optional exponent part; anything else is `NaN`. -/
def parseUnsignedDecimal (cs : List Char) : Numeric :=
  if cs = "Infinity".toList then .posInf
  else
    let intPart := spanDigits 10 cs
    let fracPart : List Nat × List Char :=
      match intPart.2 with
      | '.' :: t => spanDigits 10 t
      | t => ([], t)
    if intPart.1.isEmpty && fracPart.1.isEmpty then .nan
    else
      let mant : Int := (digitsValue 10 (intPart.1 ++ fracPart.1) : Int)
      let scale : Int := -(fracPart.1.length : Int)
      match fracPart.2 with
      | [] => decimalToNumber mant scale
      | e :: t =>
        if e = 'e' ∨ e = 'E' then
          let signedExp : Bool × List Char :=
            match t with
            | '-' :: u => (true, u)
            | '+' :: u => (false, u)
            | u => (false, u)
          let expDigits := spanDigits 10 signedExp.2
          if expDigits.1.isEmpty || !expDigits.2.isEmpty then .nan
          else if signedExp.1 then
            decimalToNumber mant (scale - (digitsValue 10 expDigits.1 : Int))
          else decimalToNumber mant (scale + (digitsValue 10 expDigits.1 : Int))
        else .nan

/-- Digits of a literal with a radix marker (`0x`, `0o`, `0b`): all of the input must be
digits of the radix, and there must be one at least. -/
def parseRadixDigits (radix : Nat) (cs : List Char) : Numeric :=
  let ds := spanDigits radix cs
  if ds.1.isEmpty || !ds.2.isEmpty then .nan
  else decimalToNumber (digitsValue radix ds.1 : Int) 0

/-- StringToNumber: white space is trimmed at both ends, the empty string is `0`, and
the rest must be one whole numeric literal. -/
def stringToNumber (s : String) : Numeric :=
  let cs := ((s.toList.dropWhile isStrWhiteSpaceChar).reverse.dropWhile
    isStrWhiteSpaceChar).reverse
  match cs with
  | [] => .fin 0 0
  | '0' :: 'x' :: t => parseRadixDigits 16 t
  | '0' :: 'X' :: t => parseRadixDigits 16 t
  | '0' :: 'o' :: t => parseRadixDigits 8 t
  | '0' :: 'O' :: t => parseRadixDigits 8 t
  | '0' :: 'b' :: t => parseRadixDigits 2 t
  | '0' :: 'B' :: t => parseRadixDigits 2 t
  | '-' :: t => (parseUnsignedDecimal t).neg
  | '+' :: t => parseUnsignedDecimal t
  | t => parseUnsignedDecimal t

/-- ToNumber on primitives. -/
def Prim.toNumber : Prim → Numeric
  | .undefined => .nan
  | .null => .fin 0 0
  | .bool true => decimalToNumber 1 0
  | .bool false => .fin 0 0
  | .num m e => decimalToNumber m e
  | .nan => .nan
  | .str s => stringToNumber s

/-- The expression `v < k` for an integer literal `k` that is a binary64 value (`30` in
the controllers): the left operand is converted with ToNumber. -/
def lessThan (v : Prim) (k : Int) : Bool :=
  v.toNumber.ltInt k

/-! ## Plain objects as mappings -/

/-- Own property lookup: the value of the first property with that key. -/
def getProp : List (String × JSVal) → String → Option JSVal
  | [], _ => none
  | (k, v) :: rest, key => if k = key then some v else getProp rest key

/-- Writing a field in a list of fields: an existing key keeps its place and takes the
new value, a new key is added at the end. -/
def setField : List (String × JSVal) → String → JSVal → List (String × JSVal)
  | [], key, v => [(key, v)]
  | (k, w) :: rest, key, v =>
    if k = key then (k, v) :: rest else (k, w) :: setField rest key v

/-- Property assignment `obj[key] = v` on the own properties of a plain object.  The key
`__proto__`, unless the object has it as an own property, reaches the setter that
`Object.prototype` provides under that name: no own property is created.  Every other
key is written as an own property. -/
def assignProp (fields : List (String × JSVal)) (key : String) (v : JSVal) :
    List (String × JSVal) :=
  if key = "__proto__" ∧ (getProp fields key).isNone then fields
  else setField fields key v

/-- Removal of a key from the list of own properties. -/
def removeProp : List (String × JSVal) → String → List (String × JSVal)
  | [], _ => []
  | (k, w) :: rest, key =>
    if k = key then removeProp rest key else (k, w) :: removeProp rest key

/-- The statement `target[key] = v`: on an object the property is assigned; on a
primitive the assignment has no effect (the controllers are not strict-mode code). -/
def JSVal.setProp (target : JSVal) (key : String) (v : JSVal) : JSVal :=
  match target with
  | .obj fields => .obj (assignProp fields key v)
  | .prim p => .prim p

/-- Own property lookup on a value; a primitive has no own properties here. -/
def JSVal.getProp (target : JSVal) (key : String) : Option JSVal :=
  match target with
  | .obj fields => EasyMath.getProp fields key
  | .prim _ => none

/-! ## Schedule documents and their store -/

/-- Modelled from the spec: the `Schedule` schema (`src/models/Schedule` is not among
the sources).  The fields are the ones the controller reads and writes; `date` holds
the value the `Date` was built from. -/
structure ScheduleRecord where
  _id : String
  student_id : Prim
  group_id : Prim
  day : Prim
  date : Prim
  time : Prim
  duration : Prim
  subject : Prim
  description : Prim
  attendance : JSVal
  updatedAt : Option Nat

/-- Modelled from the spec: the `Homework` schema (`src/models/homework` is not among
the sources).  `grade` is the record-level grade (`undefined` when absent) and `grades`
the mapping from student id to grade. -/
structure HomeworkRecord where
  _id : String
  student_id : Prim
  group_id : Prim
  day : Prim
  dueDate : Prim
  files : List String
  answer : List (Prim × String)
  grade : JSVal
  grades : List (String × JSVal)
  uploadedAt : Nat
  sentAt : Option Nat

/-- Payload of `res.json(...)`. -/
inductive ResBody where
  | error (msg : String)
  | schedule (item : ScheduleRecord)
  | homework (item : HomeworkRecord)
  | deleted (message : String) (deletedCount : Nat)

/-- What a handler sends: `res.status(s).json(b)`; `res.json(b)` alone has status 200. -/
structure Response where
  status : Nat
  body : ResBody

/-- The query `Schedule.findById(id)`. -/
def Schedule.findById (db : List ScheduleRecord) (id : String) : Option ScheduleRecord :=
  db.find? (fun r => decide (r._id = id))

/-- The call `doc.save()` on a loaded document: the stored document with that id is
replaced. -/
def Schedule.save (db : List ScheduleRecord) (doc : ScheduleRecord) : List ScheduleRecord :=
  db.map (fun r => if r._id = doc._id then doc else r)

/-- The call `doc.save()` on a new document. -/
def Schedule.insert (db : List ScheduleRecord) (doc : ScheduleRecord) : List ScheduleRecord :=
  db ++ [doc]

/-- The filter `{ _id: { $in: ids } }`: the document id is one of the listed values. -/
def Schedule.idIn (ids : List JSVal) (r : ScheduleRecord) : Bool :=
  ids.any (fun v =>
    match v with
    | .prim (.str s) => decide (s = r._id)
    | _ => false)

/-- The call `Schedule.deleteMany({ _id: { $in: ids } })`: the number of documents removed
and the collection afterwards. -/
def Schedule.deleteMany (db : List ScheduleRecord) (ids : List JSVal) :
    Nat × List ScheduleRecord :=
  ((db.filter (Schedule.idIn ids)).length, db.filter (fun r => !Schedule.idIn ids r))

/-! ## scheduleController.js -/

/-- Body of `POST /`. -/
structure AddScheduleBody where
  student_id : Prim := .undefined
  group_id : Prim := .undefined
  day : Prim := .undefined
  date : Prim := .undefined
  time : Prim := .undefined
  duration : Prim := .undefined
  subject : Prim := .undefined
  description : Prim := .undefined

/-- The handler `addScheduleItem`; `newId` is the id the store gives the new document. -/
def addScheduleItem (newId : String) (db : List ScheduleRecord) (body : AddScheduleBody) :
    Response × List ScheduleRecord :=
  if lessThan body.duration 30 then
    (⟨400, .error "Продолжительность должна быть не менее 30 минут"⟩, db)
  else if !body.student_id.truthy && !body.group_id.truthy then
    (⟨400, .error "Необходимо указать либо student_id, либо group_id"⟩, db)
  else
    let newScheduleItem : ScheduleRecord :=
      { _id := newId
        student_id := body.student_id
        group_id := body.group_id
        day := body.day
        date := body.date
        time := body.time
        duration := parseInt body.duration
        subject := body.subject
        description := body.description.orElse (.str "")
        attendance := if body.student_id.truthy then .prim (.bool false) else .prim .null
        updatedAt := none }
    (⟨201, .schedule newScheduleItem⟩, Schedule.insert db newScheduleItem)

/-- Body of `PUT /:id/updateAttendance`. -/
structure AttendanceBody where
  attendance : JSVal := .prim .undefined
  studentId : Prim := .undefined

/-- The handler `updateAttendance`; `now` is `Date.now()`. -/
def updateAttendance (now : Nat) (db : List ScheduleRecord) (id : String)
    (body : AttendanceBody) : Response × List ScheduleRecord :=
  match Schedule.findById db id with
  | none => (⟨404, .error "Занятие не найдено"⟩, db)
  | some scheduleItem =>
    if scheduleItem.student_id.truthy then
      let updatedItem : ScheduleRecord :=
        { scheduleItem with attendance := body.attendance, updatedAt := some now }
      (⟨200, .schedule updatedItem⟩, Schedule.save db updatedItem)
    else if scheduleItem.group_id.truthy && body.studentId.truthy then
      let current : JSVal :=
        if !scheduleItem.attendance.truthy then .obj [] else scheduleItem.attendance
      let updatedItem : ScheduleRecord :=
        { scheduleItem with
          attendance := current.setProp body.studentId.toJSString body.attendance
          updatedAt := some now }
      (⟨200, .schedule updatedItem⟩, Schedule.save db updatedItem)
    else
      (⟨400, .error "Для групповых занятий необходимо указать studentId"⟩, db)

/-- The handler `updateGroupAttendance`; `attendance` is `body.attendance`. -/
def updateGroupAttendance (now : Nat) (db : List ScheduleRecord) (id : String)
    (attendance : JSVal) : Response × List ScheduleRecord :=
  match Schedule.findById db id with
  | none => (⟨404, .error "Занятие не найдено"⟩, db)
  | some scheduleItem =>
    if !scheduleItem.group_id.truthy then
      (⟨400, .error "Это индивидуальное занятие. Используйте другой метод"⟩, db)
    else
      let updatedItem : ScheduleRecord :=
        { scheduleItem with attendance := attendance, updatedAt := some now }
      (⟨200, .schedule updatedItem⟩, Schedule.save db updatedItem)

/-- The table `daysOfWeek` of `getShortDayOfWeek`. -/
def daysOfWeek : List String := ["вс", "пн", "вт", "ср", "чт", "пт", "сб"]

/-- The helper `getShortDayOfWeek` applied to `new Date(date)`; `getDay` gives the day
number of the date built from a value, and `none` when that date is invalid. -/
def getShortDayOfWeek (getDay : Prim → Option (Fin 7)) (date : Prim) : String :=
  match getDay date with
  | none => ""
  | some d => daysOfWeek.getD d.val ""

/-- Body of `PUT /:id`. -/
structure UpdateScheduleBody where
  date : Prim := .undefined
  time : Prim := .undefined
  duration : Prim := .undefined
  subject : Prim := .undefined
  description : Prim := .undefined

/-- The handler `updateScheduleItem`: `findByIdAndUpdate` replaces the listed fields of
the stored document. -/
def updateScheduleItem (getDay : Prim → Option (Fin 7)) (now : Nat)
    (db : List ScheduleRecord) (id : String) (body : UpdateScheduleBody) :
    Response × List ScheduleRecord :=
  if lessThan body.duration 30 then
    (⟨400, .error "Продолжительность должна быть не менее 30 минут"⟩, db)
  else
    let dayOfWeek := getShortDayOfWeek getDay body.date
    match Schedule.findById db id with
    | none => (⟨404, .error "Занятие не найдено"⟩, db)
    | some stored =>
      let updatedItem : ScheduleRecord :=
        { stored with
          day := .str dayOfWeek
          date := body.date
          time := body.time
          duration := parseInt body.duration
          subject := body.subject
          description := body.description
          updatedAt := some now }
      (⟨200, .schedule updatedItem⟩, Schedule.save db updatedItem)

/-- The field `body.ids`: an array of values, or a value that is not an array
(`undefined` when the field is missing). -/
inductive IdsField where
  | value (v : JSVal)
  | array (items : List JSVal)

/-- ToBoolean of `ids`: an array is an object, hence truthy. -/
def IdsField.truthy : IdsField → Bool
  | .value v => v.truthy
  | .array _ => true

/-- The test `Array.isArray(ids)`. -/
def IdsField.isArray : IdsField → Bool
  | .value _ => false
  | .array _ => true

/-- Elements of `ids` when it is an array. -/
def IdsField.items : IdsField → List JSVal
  | .value _ => []
  | .array items => items

/-- The handler `deleteMultipleScheduleItems`. -/
def deleteMultipleScheduleItems (db : List ScheduleRecord) (ids : IdsField) :
    Response × List ScheduleRecord :=
  if !ids.truthy || !ids.isArray || ids.items.length == 0 then
    (⟨400, .error "Неверный формат данных: ожидается массив ID"⟩, db)
  else
    let deletedItems := Schedule.deleteMany db ids.items
    if deletedItems.1 == 0 then
      (⟨404, .error "Записи не найдены или уже удалены"⟩, deletedItems.2)
    else
      (⟨200, .deleted "Записи успешно удалены" deletedItems.1⟩, deletedItems.2)

/-! ## homeworkController.js -/

/-- Text fields of the multipart body of the homework `POST /`. -/
structure AddHomeworkBody where
  student_id : Prim := .undefined
  group_id : Prim := .undefined
  day : Prim := .undefined
  dueDate : Prim := .undefined

/-- The handler `addHomeworkItem`; `reqFiles` holds the stored names of the uploaded
files (`req.files`, absent or a list), `now` is the time of `new Date()`. -/
def addHomeworkItem (now : Nat) (newId : String) (db : List HomeworkRecord)
    (body : AddHomeworkBody) (reqFiles : Option (List String)) :
    Response × List HomeworkRecord :=
  let files : List String :=
    match reqFiles with
    | some fs => fs
    | none => []
  if !body.student_id.truthy && !body.group_id.truthy then
    (⟨400, .error "Необходимо указать student_id или group_id"⟩, db)
  else
    let newHomeworkItem : HomeworkRecord :=
      { _id := newId
        student_id := body.student_id.orElse .undefined
        group_id := body.group_id.orElse .undefined
        day := body.day
        dueDate := body.dueDate
        files := files
        answer := []
        grade := .prim .undefined
        grades := []
        uploadedAt := now
        sentAt := none }
    (⟨200, .homework newHomeworkItem⟩, db ++ [newHomeworkItem])

/-- Update documents the homework controller hands to `findByIdAndUpdate`: a plain
field replacement `{ grade: v }`, or `$set` / `$unset` on a path in dot form, here always
`grades.<studentId>`. -/
inductive HomeworkUpdate where
  | grade (v : JSVal)
  | set (path : String) (v : JSVal)
  | unset (path : String)

/-- The pieces of a character list between its dots. -/
def splitAtDots : List Char → List (List Char)
  | [] => [[]]
  | c :: cs =>
    if c = '.' then [] :: splitAtDots cs
    else
      match splitAtDots cs with
      | [] => [[c]]
      | seg :: segs => (c :: seg) :: segs

/-- Field names of a path in dot form: `a.b.c` names field `c` of field `b` of field `a`. -/
def pathSegments (path : String) : List String :=
  (splitAtDots path.toList).map String.mk

/-- The operator `$set` along a path inside a document: the last name is written, the
names before it are followed, a missing one is created as an embedded document, and the
update is rejected when one of them holds a value that is not a document. -/
def setPath : List String → List (String × JSVal) → JSVal → Option (List (String × JSVal))
  | [], _, _ => none
  | [k], fields, v => some (setField fields k v)
  | k :: k2 :: rest, fields, v =>
    match getProp fields k with
    | none => (setPath (k2 :: rest) [] v).map (fun sub => setField fields k (.obj sub))
    | some (.obj sub) =>
      (setPath (k2 :: rest) sub v).map (fun sub2 => setField fields k (.obj sub2))
    | some (.prim _) => none

/-- The operator `$unset` along a path inside a document: the last name is removed where
the names before it lead to a document, and nothing changes otherwise. -/
def unsetPath : List String → List (String × JSVal) → List (String × JSVal)
  | [], fields => fields
  | [k], fields => removeProp fields k
  | k :: k2 :: rest, fields =>
    match getProp fields k with
    | some (.obj sub) => setField fields k (.obj (unsetPath (k2 :: rest) sub))
    | _ => fields

/-- Positional operators of a path: `$`, `$[]` and `$[name]`.  They stand for elements of
an array that the query or an array filter selects.  Other names that begin with `$` are
taken as field names. -/
def isPositional (seg : String) : Bool :=
  match seg.toList with
  | ['$'] => true
  | '$' :: '[' :: _ => true
  | _ => false

/-- A field name the store accepts when it reads a path: not empty, and not a filtered
positional operator `$[name]`, for which these updates carry no array filter. -/
def acceptedFieldName (seg : String) : Bool :=
  match seg.toList with
  | [] => false
  | ['$', '[', ']'] => true
  | '$' :: '[' :: _ => false
  | _ => true

/-- A path is accepted when each of its field names is. -/
def HomeworkUpdate.wellFormed : HomeworkUpdate → Bool
  | .grade _ => true
  | .set path _ => (pathSegments path).all acceptedFieldName
  | .unset path => (pathSegments path).all acceptedFieldName

/-- Effect of an update document on one stored document; `none` when the store rejects
the update: a positional operator finds no array here (`grades` is a mapping and the
query is by id), and `$set` cannot pass through a value that is not a document.  The
controller issues paths under `grades` only, and only those are followed. -/
def HomeworkUpdate.apply (u : HomeworkUpdate) (r : HomeworkRecord) : Option HomeworkRecord :=
  match u with
  | .grade v => some { r with grade := v }
  | .set path v =>
    if (pathSegments path).any isPositional then none
    else
      match pathSegments path with
      | "grades" :: k :: rest =>
        (setPath (k :: rest) r.grades v).map (fun g => { r with grades := g })
      | _ => none
  | .unset path =>
    if (pathSegments path).any isPositional then none
    else
      match pathSegments path with
      | "grades" :: k :: rest => some { r with grades := unsetPath (k :: rest) r.grades }
      | _ => none

/-- The query `Homework.findById(id)`. -/
def Homework.findById (db : List HomeworkRecord) (id : String) : Option HomeworkRecord :=
  db.find? (fun r => decide (r._id = id))

/-- The call `Homework.findByIdAndUpdate(id, update, { new: true })`: `none` when the
store rejects the update (the call throws); otherwise the updated document, if the id
resolves, and the collection afterwards. -/
def Homework.findByIdAndUpdate (db : List HomeworkRecord) (id : String)
    (update : HomeworkUpdate) : Option (Option HomeworkRecord × List HomeworkRecord) :=
  if !update.wellFormed then none
  else
    match Homework.findById db id with
    | none => some (none, db)
    | some r =>
      match update.apply r with
      | none => none
      | some updated =>
        some (some updated, db.map (fun x => if x._id = r._id then updated else x))

/-- The handler `updateGrade`; `grade` is `body.grade`. -/
def updateGrade (db : List HomeworkRecord) (id : String) (grade : JSVal) :
    Response × List HomeworkRecord :=
  match Homework.findByIdAndUpdate db id (.grade (grade.orElse (.prim .undefined))) with
  | none => (⟨500, .error "Ошибка при обновлении оценки"⟩, db)
  | some (none, db') => (⟨404, .error "Домашнее задание не найдено"⟩, db')
  | some (some updatedHomework, db') => (⟨200, .homework updatedHomework⟩, db')

/-- The handler `updateStudentGrade`; `studentId` is the path parameter and `grade` is
`body.grade`. -/
def updateStudentGrade (db : List HomeworkRecord) (id : String) (studentId : String)
    (grade : JSVal) : Response × List HomeworkRecord :=
  let update : HomeworkUpdate :=
    if grade.notNullish then .set ("grades." ++ studentId) grade
    else .unset ("grades." ++ studentId)
  match Homework.findByIdAndUpdate db id update with
  | none => (⟨500, .error "Ошибка при обновлении оценки студента"⟩, db)
  | some (none, db') => (⟨404, .error "Домашнее задание не найдено"⟩, db')
  | some (some updatedHomework, db') => (⟨200, .homework updatedHomework⟩, db')

/-! ## Sample collections -/

/-- A stored group lesson with attendance recorded for two students. -/
def groupLesson : ScheduleRecord :=
  { _id := "l1"
    student_id := .undefined
    group_id := .str "g1"
    day := .str "пн"
    date := .str "2024-09-02"
    time := .str "10:00"
    duration := .num 45 0
    subject := .str "Алгебра"
    description := .str ""
    attendance := .obj [("s1", .prim (.bool true)), ("s2", .prim (.bool false))]
    updatedAt := none }

/-- A stored individual lesson. -/
def individualLesson : ScheduleRecord :=
  { _id := "l2"
    student_id := .str "s1"
    group_id := .undefined
    day := .str "вт"
    date := .str "2024-09-03"
    time := .str "12:00"
    duration := .num 60 0
    subject := .str "Геометрия"
    description := .str ""
    attendance := .prim (.bool false)
    updatedAt := none }

/-- A schedule collection with one group lesson and one individual lesson. -/
def sampleSchedule : List ScheduleRecord := [groupLesson, individualLesson]

/-- A second stored individual lesson. -/
def eveningLesson : ScheduleRecord :=
  { individualLesson with _id := "l7", time := .str "18:00" }

/-- A schedule collection with three lessons. -/
def threeLessons : List ScheduleRecord := [groupLesson, eveningLesson, individualLesson]

/-- A stored group assignment with two per-student grades. -/
def groupHomework : HomeworkRecord :=
  { _id := "h1"
    student_id := .undefined
    group_id := .str "g1"
    day := .str "пн"
    dueDate := .str "2024-09-09"
    files := ["1725000000000.pdf"]
    answer := []
    grade := .prim .undefined
    grades := [("s1", .prim (.num 5 0)), ("s2", .prim (.num 4 0))]
    uploadedAt := 3
    sentAt := none }

/-- A stored individual assignment graded 4. -/
def individualHomework : HomeworkRecord :=
  { _id := "h2"
    student_id := .str "s1"
    group_id := .undefined
    day := .str "вт"
    dueDate := .str "2024-09-10"
    files := []
    answer := []
    grade := .prim (.num 4 0)
    grades := []
    uploadedAt := 4
    sentAt := none }

/-- A homework collection with one group and one individual assignment. -/
def sampleHomework : List HomeworkRecord := [groupHomework, individualHomework]

/-! ## Target kind and attendance shape -/

/-- Exactly one of `student_id` and `group_id` is set. -/
def ScheduleRecord.oneTarget (r : ScheduleRecord) : Bool :=
  r.student_id.truthy != r.group_id.truthy

/-- Attendance of an individual lesson: unset (`null`) or one boolean. -/
def JSVal.isFlagOrNull : JSVal → Bool
  | .prim .null => true
  | .prim (.bool _) => true
  | _ => false

/-- Attendance of a group lesson: unset (`null`) or a mapping keyed by student id. -/
def JSVal.isMappingOrNull : JSVal → Bool
  | .prim .null => true
  | .obj _ => true
  | _ => false

/-- The attendance field has the shape of the record's target. -/
def ScheduleRecord.shapeValid (r : ScheduleRecord) : Bool :=
  if r.student_id.truthy then r.attendance.isFlagOrNull else r.attendance.isMappingOrNull

/-- The collection after `addHomeworkItem` created a group assignment. -/
def createdGroupHomework : List HomeworkRecord :=
  (addHomeworkItem 3 "h1" [] { group_id := .str "g1", day := .str "пн" } none).2

/-- The collection after `addHomeworkItem` created an individual assignment. -/
def createdIndividualHomework : List HomeworkRecord :=
  (addHomeworkItem 4 "h2" [] { student_id := .str "s1", day := .str "вт" } none).2

/-- The collection after `addScheduleItem` created a lesson from a body that names a
student and a group at once. -/
def createdBothTargets : List ScheduleRecord :=
  (addScheduleItem "l5" []
    { student_id := .str "s1", group_id := .str "g1", duration := .num 45 0 }).2

/-- The collection after `addScheduleItem` created a group lesson. -/
def createdGroupLesson : List ScheduleRecord :=
  (addScheduleItem "l6" [] { group_id := .str "g1", duration := .num 45 0 }).2

/-- The collection after `updateGroupAttendance` stored the scalar `true` on the group
lesson that `addScheduleItem` created. -/
def groupLessonMarkedTrue : List ScheduleRecord :=
  (updateGroupAttendance 9 createdGroupLesson "l6" (.prim (.bool true))).2

/-! # Theorems -/

/-! ## Mappings -/

/-- Reading a key just assigned gives the assigned value. -/
theorem getProp_setField_self (fields : List (String × JSVal)) (key : String) (v : JSVal) :
    getProp (setField fields key v) key = some v := by
  induction fields with
  | nil => simp [setField, getProp]
  | cons kv rest ih =>
    obtain ⟨k, w⟩ := kv
    by_cases h : k = key
    · simp [setField, getProp, h]
    · simp [setField, getProp, h, ih]

/-- Assignment to a key leaves every other key as it was. -/
theorem getProp_setField_other (fields : List (String × JSVal)) (key other : String)
    (v : JSVal) (hne : other ≠ key) :
    getProp (setField fields key v) other = getProp fields other := by
  induction fields with
  | nil =>
    have : ¬ key = other := fun h => hne h.symm
    simp [setField, getProp, this]
  | cons kv rest ih =>
    obtain ⟨k, w⟩ := kv
    by_cases h : k = key
    · have : ¬ key = other := fun h => hne h.symm
      simp [setField, getProp, h, this]
    · by_cases h2 : k = other
      · subst h2
        simp [setField, getProp, h]
      · simp [setField, getProp, h, h2, ih]

/-- Off the key `__proto__`, property assignment writes the field. -/
theorem assignProp_ordinary (fields : List (String × JSVal)) (key : String) (v : JSVal)
    (hkey : key ≠ "__proto__") : assignProp fields key v = setField fields key v := by
  simp [assignProp, hkey]

/-- A removed key is no longer present. -/
theorem getProp_removeProp_self (fields : List (String × JSVal)) (key : String) :
    getProp (removeProp fields key) key = none := by
  induction fields with
  | nil => simp [removeProp, getProp]
  | cons kv rest ih =>
    obtain ⟨k, w⟩ := kv
    by_cases h : k = key
    · simp [removeProp, h, ih]
    · simp [removeProp, getProp, h, ih]

/-- Removal of a key leaves every other key as it was. -/
theorem getProp_removeProp_other (fields : List (String × JSVal)) (key other : String)
    (hne : other ≠ key) :
    getProp (removeProp fields key) other = getProp fields other := by
  induction fields with
  | nil => simp [removeProp, getProp]
  | cons kv rest ih =>
    obtain ⟨k, w⟩ := kv
    by_cases h : k = key
    · have : ¬ key = other := fun h => hne h.symm
      simp [removeProp, getProp, h, this, ih]
    · by_cases h2 : k = other
      · subst h2
        simp [removeProp, getProp, h]
      · simp [removeProp, getProp, h, h2, ih]

/-! ## The store -/

/-- The document found by id has that id. -/
theorem schedule_findById_id {db : List ScheduleRecord} {id : String} {r : ScheduleRecord}
    (h : Schedule.findById db id = some r) : r._id = id := by
  have := List.find?_some h
  simpa using this

/-- After `save`, the id resolves to the saved document. -/
theorem schedule_findById_save {db : List ScheduleRecord} {id : String} {r : ScheduleRecord}
    (doc : ScheduleRecord) (h : Schedule.findById db id = some r) (hid : doc._id = id) :
    Schedule.findById (Schedule.save db doc) id = some doc := by
  induction db with
  | nil => simp [Schedule.findById] at h
  | cons x xs ih =>
    by_cases hx : x._id = id
    · simp [Schedule.findById, Schedule.save, List.find?, hx, hid]
    · have h2 : Schedule.findById xs id = some r := by
        simpa [Schedule.findById, List.find?, hx] using h
      have h3 := ih h2
      have hx2 : ¬ x._id = doc._id := by rw [hid]; exact hx
      unfold Schedule.findById Schedule.save at h3 ⊢
      rw [List.map_cons, if_neg hx2, List.find?_cons]
      simp only [hx, decide_False]
      exact h3

/-- The homework document found by id has that id. -/
theorem homework_findById_id {db : List HomeworkRecord} {id : String} {r : HomeworkRecord}
    (h : Homework.findById db id = some r) : r._id = id := by
  have := List.find?_some h
  simpa using this

/-- After the stored document with an id is replaced, the id resolves to the replacement. -/
theorem homework_findById_map {db : List HomeworkRecord} {id : String} {r : HomeworkRecord}
    (doc : HomeworkRecord) (h : Homework.findById db id = some r) (hid : doc._id = id) :
    Homework.findById (db.map (fun x => if x._id = id then doc else x)) id = some doc := by
  induction db with
  | nil => simp [Homework.findById] at h
  | cons x xs ih =>
    by_cases hx : x._id = id
    · simp [Homework.findById, List.find?, hx, hid]
    · have h2 : Homework.findById xs id = some r := by
        simpa [Homework.findById, List.find?, hx] using h
      have h3 := ih h2
      unfold Homework.findById at h3 ⊢
      rw [List.map_cons, if_neg hx, List.find?_cons]
      simp only [hx, decide_False]
      exact h3

/-! ## Attendance -/

/-- The group branch of `updateAttendance`, computed. -/
theorem updateAttendance_group_eq (now : Nat) (db : List ScheduleRecord) (id : String)
    (r : ScheduleRecord) (body : AttendanceBody)
    (hfind : Schedule.findById db id = some r)
    (hstudent : r.student_id.truthy = false) (hgroup : r.group_id.truthy = true)
    (hS : body.studentId.truthy = true) :
    updateAttendance now db id body =
      (⟨200, .schedule { r with
          attendance := (if !r.attendance.truthy then JSVal.obj [] else r.attendance).setProp
            body.studentId.toJSString body.attendance
          updatedAt := some now }⟩,
        Schedule.save db { r with
          attendance := (if !r.attendance.truthy then JSVal.obj [] else r.attendance).setProp
            body.studentId.toJSString body.attendance
          updatedAt := some now }) := by
  unfold updateAttendance
  rw [hfind]
  simp only [hstudent, hgroup, hS, Bool.and_self, if_true, Bool.false_eq_true, if_false]

/-- Claim C1 fails as stated.  On the group lesson that `addScheduleItem` created and on
which `updateGroupAttendance` stored the scalar `true`, `updateAttendance` for student
`s3` with value `false` responds 200 and the saved attendance is still `true`, with no key
`s3`.  On a group lesson with a mapping, `updateAttendance` for the studentId `__proto__`
responds 200 and the saved mapping is the one from before, with no key `__proto__`. -/
theorem updateAttendance_group_key_not_written :
    ((Schedule.findById groupLessonMarkedTrue "l6").map
        (fun r => (r.student_id.truthy, r.group_id.truthy, r.attendance))
      = some (false, true, .prim (.bool true)) ∧
     (updateAttendance 10 groupLessonMarkedTrue "l6"
        ⟨.prim (.bool false), .str "s3"⟩).1.status = 200 ∧
     (Schedule.findById (updateAttendance 10 groupLessonMarkedTrue "l6"
        ⟨.prim (.bool false), .str "s3"⟩).2 "l6").map
        (fun r => (r.attendance, r.attendance.getProp "s3"))
      = some (.prim (.bool true), none)) ∧
    ((updateAttendance 7 sampleSchedule "l1"
        ⟨.prim (.bool true), .str "__proto__"⟩).1.status = 200 ∧
     (Schedule.findById (updateAttendance 7 sampleSchedule "l1"
        ⟨.prim (.bool true), .str "__proto__"⟩).2 "l1").map
        (fun r => (r.attendance, r.attendance.getProp "__proto__"))
      = some (groupLesson.attendance, none)) := by
  decide

/-- Claim C1 as amended.  On a group-targeted lesson (`group_id` set, `student_id` not
set) whose attendance is unset (`null`) or a mapping, `updateAttendance` with a non-empty
`studentId` S other than `__proto__` and any value V succeeds, and the saved record has
`attendance[S]` equal to V, every other key with the presence and value it had before,
and exactly the mapping with the one entry S, V when the attendance was `null` before. -/
theorem updateAttendance_group_single_key (now : Nat) (db : List ScheduleRecord) (id : String)
    (r : ScheduleRecord) (S : Prim) (V : JSVal)
    (hfind : Schedule.findById db id = some r)
    (hstudent : r.student_id.truthy = false) (hgroup : r.group_id.truthy = true)
    (hS : S.truthy = true) (hkey : S.toJSString ≠ "__proto__")
    (hshape : r.attendance = .prim .null ∨ ∃ fields, r.attendance = .obj fields) :
    (updateAttendance now db id ⟨V, S⟩).1.status = 200 ∧
    ∃ saved, Schedule.findById (updateAttendance now db id ⟨V, S⟩).2 id = some saved ∧
      saved.attendance.getProp S.toJSString = some V ∧
      (∀ key, key ≠ S.toJSString →
        saved.attendance.getProp key = r.attendance.getProp key) ∧
      (r.attendance = .prim .null → saved.attendance = .obj [(S.toJSString, V)]) := by
  have hid := schedule_findById_id hfind
  rw [updateAttendance_group_eq now db id r ⟨V, S⟩ hfind hstudent hgroup hS]
  refine ⟨rfl, _, schedule_findById_save _ hfind hid, ?_⟩
  rcases hshape with hnull | ⟨fields, hobj⟩
  · refine ⟨?_, ?_, ?_⟩
    · simp [hnull, JSVal.truthy, Prim.truthy, JSVal.setProp, assignProp_ordinary _ _ _ hkey,
        setField, JSVal.getProp, getProp]
    · intro key hne
      have : ¬ S.toJSString = key := fun h => hne h.symm
      simp [hnull, JSVal.truthy, Prim.truthy, JSVal.setProp, assignProp_ordinary _ _ _ hkey,
        setField, JSVal.getProp, getProp, this]
    · intro _
      simp [hnull, JSVal.truthy, Prim.truthy, JSVal.setProp, assignProp_ordinary _ _ _ hkey,
        setField]
  · refine ⟨?_, ?_, ?_⟩
    · simp [hobj, JSVal.truthy, JSVal.setProp, JSVal.getProp, assignProp_ordinary _ _ _ hkey,
        getProp_setField_self]
    · intro key hne
      simp [hobj, JSVal.truthy, JSVal.setProp, JSVal.getProp, assignProp_ordinary _ _ _ hkey,
        getProp_setField_other _ _ _ _ hne]
    · intro h; rw [hobj] at h; cases h

theorem updateAttendance_group_single_key_witness :
    (Schedule.findById sampleSchedule "l1" = some groupLesson ∧
      groupLesson.student_id.truthy = false ∧ groupLesson.group_id.truthy = true ∧
      (Prim.str "s3").truthy = true ∧ (Prim.str "s3").toJSString ≠ "__proto__" ∧
      (groupLesson.attendance = .prim .null ∨ ∃ fields, groupLesson.attendance = .obj fields)) ∧
    ((updateAttendance 7 sampleSchedule "l1" ⟨.prim (.bool true), .str "s3"⟩).1.status = 200 ∧
    ∃ saved, Schedule.findById
        (updateAttendance 7 sampleSchedule "l1" ⟨.prim (.bool true), .str "s3"⟩).2 "l1"
        = some saved ∧
      saved.attendance.getProp (Prim.str "s3").toJSString = some (.prim (.bool true)) ∧
      (∀ key, key ≠ (Prim.str "s3").toJSString →
        saved.attendance.getProp key = groupLesson.attendance.getProp key) ∧
      (groupLesson.attendance = .prim .null →
        saved.attendance = .obj [((Prim.str "s3").toJSString, .prim (.bool true))])) :=
  ⟨⟨rfl, rfl, rfl, rfl, by decide, Or.inr ⟨_, rfl⟩⟩,
    updateAttendance_group_single_key 7 sampleSchedule "l1" groupLesson (.str "s3")
      (.prim (.bool true)) rfl rfl rfl rfl (by decide) (Or.inr ⟨_, rfl⟩)⟩

/-- The success branch of `updateGroupAttendance`, computed. -/
theorem updateGroupAttendance_eq (now : Nat) (db : List ScheduleRecord) (id : String)
    (r : ScheduleRecord) (attendance : JSVal)
    (hfind : Schedule.findById db id = some r) (hgroup : r.group_id.truthy = true) :
    updateGroupAttendance now db id attendance =
      (⟨200, .schedule { r with attendance := attendance, updatedAt := some now }⟩,
        Schedule.save db { r with attendance := attendance, updatedAt := some now }) := by
  unfold updateGroupAttendance
  rw [hfind]
  simp only [hgroup, Bool.not_true, Bool.false_eq_true, if_false]

/-- Claim C2.  On a lesson with `group_id` set, `updateGroupAttendance` with a mapping M
succeeds and the saved record's attendance is M itself: a key reads in the saved
attendance exactly what it reads in M, so no key of the previous mapping survives unless
M has it. -/
theorem updateGroupAttendance_replaces_mapping (now : Nat) (db : List ScheduleRecord)
    (id : String) (r : ScheduleRecord) (M : List (String × JSVal))
    (hfind : Schedule.findById db id = some r) (hgroup : r.group_id.truthy = true) :
    (updateGroupAttendance now db id (.obj M)).1.status = 200 ∧
    ∃ saved, Schedule.findById (updateGroupAttendance now db id (.obj M)).2 id = some saved ∧
      saved.attendance = .obj M ∧
      ∀ key, saved.attendance.getProp key = getProp M key := by
  have hid : r._id = id := schedule_findById_id hfind
  rw [updateGroupAttendance_eq now db id r (.obj M) hfind hgroup]
  exact ⟨rfl, _, schedule_findById_save _ hfind hid, rfl, fun _ => rfl⟩

theorem updateGroupAttendance_replaces_mapping_witness :
    (Schedule.findById sampleSchedule "l1" = some groupLesson ∧
      groupLesson.group_id.truthy = true) ∧
    ((updateGroupAttendance 9 sampleSchedule "l1" (.obj [("s3", .prim (.bool true))])).1.status
        = 200 ∧
    ∃ saved, Schedule.findById
        (updateGroupAttendance 9 sampleSchedule "l1" (.obj [("s3", .prim (.bool true))])).2 "l1"
        = some saved ∧
      saved.attendance = .obj [("s3", .prim (.bool true))] ∧
      ∀ key, saved.attendance.getProp key = getProp [("s3", .prim (.bool true))] key) :=
  ⟨⟨rfl, rfl⟩,
    updateGroupAttendance_replaces_mapping 9 sampleSchedule "l1" groupLesson
      [("s3", .prim (.bool true))] rfl rfl⟩

/-- Claim C5.  On an existing lesson without `student_id`, `updateAttendance` with a body
whose `studentId` is absent, `null` or the empty string responds 400 with the validation
message and leaves the collection as it was: nothing is modified or saved. -/
theorem updateAttendance_group_requires_studentId (now : Nat) (db : List ScheduleRecord)
    (id : String) (r : ScheduleRecord) (body : AttendanceBody)
    (hfind : Schedule.findById db id = some r)
    (hstudent : r.student_id.truthy = false)
    (hS : body.studentId = .undefined ∨ body.studentId = .null ∨ body.studentId = .str "") :
    updateAttendance now db id body =
      (⟨400, .error "Для групповых занятий необходимо указать studentId"⟩, db) := by
  have hfalsy : body.studentId.truthy = false := by
    rcases hS with h | h | h <;> simp [h, Prim.truthy]
  unfold updateAttendance
  rw [hfind]
  simp only [hstudent, hfalsy, Bool.and_false, Bool.false_eq_true, if_false]

theorem updateAttendance_group_requires_studentId_witness :
    (Schedule.findById sampleSchedule "l1" = some groupLesson ∧
      groupLesson.student_id.truthy = false ∧
      ((⟨.prim (.bool true), .str ""⟩ : AttendanceBody).studentId = .undefined ∨
        (⟨.prim (.bool true), .str ""⟩ : AttendanceBody).studentId = .null ∨
        (⟨.prim (.bool true), .str ""⟩ : AttendanceBody).studentId = .str "")) ∧
    updateAttendance 7 sampleSchedule "l1" ⟨.prim (.bool true), .str ""⟩ =
      (⟨400, .error "Для групповых занятий необходимо указать studentId"⟩, sampleSchedule) :=
  ⟨⟨rfl, rfl, Or.inr (Or.inr rfl)⟩,
    updateAttendance_group_requires_studentId 7 sampleSchedule "l1" groupLesson
      ⟨.prim (.bool true), .str ""⟩ rfl rfl (Or.inr (Or.inr rfl))⟩

/-! ## Grades -/

/-- The test `notNullish` holds exactly off `null` and `undefined`. -/
theorem notNullish_eq_true (g : JSVal) :
    g.notNullish = true ↔ g ≠ .prim .null ∧ g ≠ .prim .undefined := by
  cases g with
  | prim p => cases p <;> simp [JSVal.notNullish]
  | obj fields => simp [JSVal.notNullish]

/-- A character list without a dot is one piece. -/
theorem splitAtDots_no_dot (cs : List Char) (h : '.' ∉ cs) : splitAtDots cs = [cs] := by
  induction cs with
  | nil => rfl
  | cons c rest ih =>
    have hc : c ≠ '.' := fun e => h (by simp [e])
    have hrest : '.' ∉ rest := fun e => h (by simp [e])
    simp [splitAtDots, hc, ih hrest]

/-- For a student id without a dot, the path `grades.<studentId>` names the field
`studentId` of the field `grades`. -/
theorem pathSegments_grades (S : String) (h : '.' ∉ S.toList) :
    pathSegments ("grades." ++ S) = ["grades", S] := by
  have hs : ("grades." ++ S).toList
      = 'g' :: 'r' :: 'a' :: 'd' :: 'e' :: 's' :: '.' :: S.toList := by
    simp [String.toList]
  have hone : splitAtDots S.data = [S.data] := splitAtDots_no_dot _ h
  simp [pathSegments, hs, splitAtDots]
  rw [hone]
  rfl

/-- A non-empty name that does not begin with `$` is accepted as a field name and is no
positional operator. -/
theorem plain_name_accepted (S : String) (hS : S ≠ "") (hdollar : S.toList.head? ≠ some '$') :
    acceptedFieldName S = true ∧ isPositional S = false := by
  obtain ⟨cs⟩ := S
  cases cs with
  | nil => exact absurd rfl hS
  | cons c rest =>
    have hc : c ≠ '$' := fun e => hdollar (by simp [e])
    constructor
    · unfold acceptedFieldName
      split <;> simp_all
    · unfold isPositional
      split <;> simp_all

/-- The success branch of `updateStudentGrade` for a non-empty student id without a dot
that does not begin with `$`, computed. -/
theorem updateStudentGrade_eq (db : List HomeworkRecord) (id S : String) (grade : JSVal)
    (r : HomeworkRecord) (hfind : Homework.findById db id = some r)
    (hS : S ≠ "") (hdot : '.' ∉ S.toList) (hdollar : S.toList.head? ≠ some '$') :
    updateStudentGrade db id S grade =
      (⟨200, .homework { r with grades :=
          if grade.notNullish then setField r.grades S grade else removeProp r.grades S }⟩,
        db.map (fun x => if x._id = id then
          { r with grades :=
            if grade.notNullish then setField r.grades S grade else removeProp r.grades S }
          else x)) := by
  have hid := homework_findById_id hfind
  have hseg := pathSegments_grades S hdot
  unfold updateStudentGrade Homework.findByIdAndUpdate
  have hgrades : acceptedFieldName "grades" = true ∧ isPositional "grades" = false := by
    decide
  obtain ⟨hname, hpos⟩ := plain_name_accepted S hS hdollar
  cases hg : grade.notNullish <;>
    simp [hfind, hid, hseg, hname, hpos, hgrades, HomeworkUpdate.wellFormed,
      HomeworkUpdate.apply, setPath, unsetPath]

/-- Claim C3 fails as stated.  For the studentId `a.b` the path `grades.a.b` names the
field `b` of the field `a` of `grades`: `updateStudentGrade` with grade 5 responds 200, and
the stored `grades` then has no key `a.b`, while its key `a`, absent before, holds the
mapping from `b` to 5.  For the studentId `$` the path `grades.$` carries the positional
operator, the store rejects the update, and the handler responds 500 with the record as
it was. -/
theorem updateStudentGrade_dotted_id :
    (getProp groupHomework.grades "a" = none ∧
      Homework.findById sampleHomework "h1" = some groupHomework) ∧
    ((updateStudentGrade sampleHomework "h1" "a.b" (.prim (.num 5 0))).1.status = 200 ∧
     (Homework.findById
        (updateStudentGrade sampleHomework "h1" "a.b" (.prim (.num 5 0))).2 "h1").map
        (fun r => (getProp r.grades "a.b", getProp r.grades "a"))
      = some (none, some (.obj [("b", .prim (.num 5 0))]))) ∧
    ((updateStudentGrade sampleHomework "h1" "$" (.prim (.num 5 0))).1.status = 500 ∧
     (Homework.findById
        (updateStudentGrade sampleHomework "h1" "$" (.prim (.num 5 0))).2 "h1").map
        (fun r => getProp r.grades "$") = some none) :=
  ⟨⟨rfl, rfl⟩, ⟨rfl, rfl⟩, ⟨rfl, rfl⟩⟩

/-- Claim C3 as amended.  On an existing homework record, `updateStudentGrade` with a
non-empty path parameter S that contains no dot and does not begin with `$`, and body
grade g, succeeds and returns the stored record after the update; there `grades[S]` is g
when g is neither `null` nor `undefined`, S is not a key of `grades` when g is `null` or
absent, and every other key of `grades` is as before. -/
theorem updateStudentGrade_sets_or_removes (db : List HomeworkRecord) (id S : String)
    (g : JSVal) (r : HomeworkRecord) (hfind : Homework.findById db id = some r)
    (hS : S ≠ "") (hdot : '.' ∉ S.toList) (hdollar : S.toList.head? ≠ some '$') :
    (updateStudentGrade db id S g).1.status = 200 ∧
    ∃ updated, Homework.findById (updateStudentGrade db id S g).2 id = some updated ∧
      (updateStudentGrade db id S g).1.body = .homework updated ∧
      (g ≠ .prim .null ∧ g ≠ .prim .undefined → getProp updated.grades S = some g) ∧
      (g = .prim .null ∨ g = .prim .undefined → getProp updated.grades S = none) ∧
      ∀ key, key ≠ S → getProp updated.grades key = getProp r.grades key := by
  have hid := homework_findById_id hfind
  rw [updateStudentGrade_eq db id S g r hfind hS hdot hdollar]
  refine ⟨rfl, _, homework_findById_map _ hfind hid, rfl, ?_, ?_, ?_⟩
  · intro h
    have hg := (notNullish_eq_true g).2 h
    simp [hg, getProp_setField_self]
  · intro h
    have hg : g.notNullish = false := by
      rcases h with h | h <;> simp [h, JSVal.notNullish]
    simp [hg, getProp_removeProp_self]
  · intro key hne
    cases hg : g.notNullish
    · simp [getProp_removeProp_other _ _ _ hne]
    · simp [getProp_setField_other _ _ _ _ hne]

theorem updateStudentGrade_sets_or_removes_witness :
    (Homework.findById sampleHomework "h1" = some groupHomework ∧
      ("s1" : String) ≠ "" ∧ '.' ∉ ("s1" : String).toList ∧
      ("s1" : String).toList.head? ≠ some '$') ∧
    ((updateStudentGrade sampleHomework "h1" "s1" (.prim .null)).1.status = 200 ∧
    ∃ updated, Homework.findById
        (updateStudentGrade sampleHomework "h1" "s1" (.prim .null)).2 "h1" = some updated ∧
      (updateStudentGrade sampleHomework "h1" "s1" (.prim .null)).1.body = .homework updated ∧
      (JSVal.prim .null ≠ .prim .null ∧ JSVal.prim .null ≠ .prim .undefined →
        getProp updated.grades "s1" = some (.prim .null)) ∧
      (JSVal.prim .null = .prim .null ∨ JSVal.prim .null = .prim .undefined →
        getProp updated.grades "s1" = none) ∧
      ∀ key, key ≠ "s1" → getProp updated.grades key = getProp groupHomework.grades key) :=
  ⟨⟨rfl, by decide, by decide, by decide⟩,
    updateStudentGrade_sets_or_removes sampleHomework "h1" "s1" (.prim .null)
      groupHomework rfl (by decide) (by decide) (by decide)⟩

/-! ## Creation -/

/-- The guard compares binary64 values: the string `29.999999999999999` converts to the
number 30 and is not below 30, while `29.99` and the number 29.5 are. -/
theorem lessThan_compares_binary64 :
    lessThan (.str "29.999999999999999") 30 = false ∧
    lessThan (.str "29.99") 30 = true ∧
    lessThan (.num 295 (-1)) 30 = true ∧
    lessThan (.num 30 0) 30 = false := by
  decide

/-- Claim C6.  When `duration < 30` holds for the body's duration, `addScheduleItem`
responds 400 with the minimum-duration message, whatever the other fields are, and the
collection is unchanged: no record is created. -/
theorem addScheduleItem_short_duration_rejected (newId : String) (db : List ScheduleRecord)
    (body : AddScheduleBody) (hshort : lessThan body.duration 30 = true) :
    addScheduleItem newId db body =
      (⟨400, .error "Продолжительность должна быть не менее 30 минут"⟩, db) := by
  unfold addScheduleItem
  simp only [hshort, if_true]

theorem addScheduleItem_short_duration_rejected_witness :
    lessThan ({ student_id := .str "s1", duration := .num 295 (-1) } : AddScheduleBody).duration
      30 = true ∧
    addScheduleItem "l3" sampleSchedule { student_id := .str "s1", duration := .num 295 (-1) } =
      (⟨400, .error "Продолжительность должна быть не менее 30 минут"⟩, sampleSchedule) :=
  ⟨by decide,
    addScheduleItem_short_duration_rejected "l3" sampleSchedule
      { student_id := .str "s1", duration := .num 295 (-1) } (by decide)⟩

/-- Claim C8.  A request with neither `student_id` nor `group_id` is rejected with status
400 and an error message by `addScheduleItem` and by `addHomeworkItem`, and the collection
is unchanged: no record is created. -/
theorem add_without_target_rejected (newId : String) (db : List ScheduleRecord)
    (body : AddScheduleBody) (now : Nat) (newHomeworkId : String) (hdb : List HomeworkRecord)
    (hbody : AddHomeworkBody) (reqFiles : Option (List String))
    (hs : body.student_id.truthy = false) (hg : body.group_id.truthy = false)
    (hhs : hbody.student_id.truthy = false) (hhg : hbody.group_id.truthy = false) :
    ((addScheduleItem newId db body).1.status = 400 ∧
      (∃ msg, (addScheduleItem newId db body).1.body = .error msg) ∧
      (addScheduleItem newId db body).2 = db) ∧
    addHomeworkItem now newHomeworkId hdb hbody reqFiles =
      (⟨400, .error "Необходимо указать student_id или group_id"⟩, hdb) := by
  constructor
  · unfold addScheduleItem
    cases hd : lessThan body.duration 30
    · simp [hs, hg]
    · simp
  · unfold addHomeworkItem
    simp [hhs, hhg]

theorem add_without_target_rejected_witness :
    ((({ duration := .num 45 0 } : AddScheduleBody).student_id.truthy = false ∧
      ({ duration := .num 45 0 } : AddScheduleBody).group_id.truthy = false) ∧
     (({ day := .str "пн" } : AddHomeworkBody).student_id.truthy = false ∧
      ({ day := .str "пн" } : AddHomeworkBody).group_id.truthy = false)) ∧
    (((addScheduleItem "l3" sampleSchedule { duration := .num 45 0 }).1.status = 400 ∧
      (∃ msg, (addScheduleItem "l3" sampleSchedule { duration := .num 45 0 }).1.body
        = .error msg) ∧
      (addScheduleItem "l3" sampleSchedule { duration := .num 45 0 }).2 = sampleSchedule) ∧
    addHomeworkItem 5 "h3" sampleHomework { day := .str "пн" } (some ["a.pdf"]) =
      (⟨400, .error "Необходимо указать student_id или group_id"⟩, sampleHomework)) :=
  ⟨⟨⟨rfl, rfl⟩, ⟨rfl, rfl⟩⟩,
    add_without_target_rejected "l3" sampleSchedule { duration := .num 45 0 } 5 "h3"
      sampleHomework { day := .str "пн" } (some ["a.pdf"]) rfl rfl rfl rfl⟩

/-! ## Deletion -/

/-- The filter `idIn` holds exactly when the record id, as a string, is listed. -/
theorem schedule_idIn_iff_mem (ids : List JSVal) (r : ScheduleRecord) :
    Schedule.idIn ids r = true ↔ JSVal.prim (.str r._id) ∈ ids := by
  unfold Schedule.idIn
  rw [List.any_eq_true]
  constructor
  · rintro ⟨v, hv, hm⟩
    cases v with
    | prim p =>
      cases p <;> simp at hm
      subst hm
      exact hv
    | obj fields => simp at hm
  · intro h
    exact ⟨_, h, by simp⟩

/-- The call `deleteMany` removes exactly the records whose id is listed and counts
them. -/
theorem schedule_deleteMany_eq (db : List ScheduleRecord) (ids : List JSVal) :
    Schedule.deleteMany db ids =
      (db.countP (fun r => decide (JSVal.prim (.str r._id) ∈ ids)),
        db.filter (fun r => decide (JSVal.prim (.str r._id) ∉ ids))) := by
  have hfun : Schedule.idIn ids = fun r => decide (JSVal.prim (.str r._id) ∈ ids) := by
    funext r
    cases h : Schedule.idIn ids r
    · have : ¬ JSVal.prim (.str r._id) ∈ ids := fun hm => by
        rw [(schedule_idIn_iff_mem ids r).2 hm] at h
        cases h
      simp [this]
    · simp [(schedule_idIn_iff_mem ids r).1 h]
  unfold Schedule.deleteMany
  rw [hfun, List.countP_eq_length_filter]
  simp

/-- No listed record is counted exactly when no stored record has its id listed. -/
theorem schedule_countP_eq_zero (db : List ScheduleRecord) (ids : List JSVal) :
    db.countP (fun r => decide (JSVal.prim (.str r._id) ∈ ids)) = 0 ↔
      ∀ r ∈ db, JSVal.prim (.str r._id) ∉ ids := by
  rw [List.countP_eq_zero]
  constructor
  · intro h r hr
    simpa using h r hr
  · intro h r hr
    simpa using h r hr

/-- The handler `deleteMultipleScheduleItems` on a non-empty array, computed. -/
theorem deleteMultipleScheduleItems_array (db : List ScheduleRecord) (items : List JSVal)
    (hne : items ≠ []) :
    deleteMultipleScheduleItems db (.array items) =
      if db.countP (fun r => decide (JSVal.prim (.str r._id) ∈ items)) = 0 then
        (⟨404, .error "Записи не найдены или уже удалены"⟩,
          db.filter (fun r => decide (JSVal.prim (.str r._id) ∉ items)))
      else
        (⟨200, .deleted "Записи успешно удалены"
            (db.countP (fun r => decide (JSVal.prim (.str r._id) ∈ items)))⟩,
          db.filter (fun r => decide (JSVal.prim (.str r._id) ∉ items))) := by
  have hlen : (items.length == 0) = false := by
    cases items with
    | nil => exact absurd rfl hne
    | cons x xs => rfl
  unfold deleteMultipleScheduleItems
  simp only [IdsField.truthy, IdsField.isArray, IdsField.items, hlen, schedule_deleteMany_eq,
    Bool.not_true, Bool.or_self, Bool.false_eq_true, if_false, beq_iff_eq]

/-- Claim C9.  `deleteMultipleScheduleItems` responds 400 exactly when `ids` is not an
array (a missing field included) or is an empty array, and then changes nothing;
otherwise it responds 404 exactly when no stored record has its id among the elements
of `ids`, and nothing is stored differently; otherwise it responds 200 with `deletedCount`
the number of stored records whose id is an element of `ids`, and the collection keeps
exactly the records whose id is not an element of `ids`. -/
theorem deleteMultipleScheduleItems_classification (db : List ScheduleRecord)
    (ids : IdsField) :
    ((deleteMultipleScheduleItems db ids).1.status = 400 ↔
      (ids.isArray = false ∨ ids.items = [])) ∧
    ((deleteMultipleScheduleItems db ids).1.status = 404 ↔
      (ids.isArray = true ∧ ids.items ≠ [] ∧
        ∀ r ∈ db, JSVal.prim (.str r._id) ∉ ids.items)) ∧
    (ids.isArray = false ∨ ids.items = [] →
      deleteMultipleScheduleItems db ids =
        (⟨400, .error "Неверный формат данных: ожидается массив ID"⟩, db)) ∧
    (ids.isArray = true → ids.items ≠ [] →
      (∀ r ∈ db, JSVal.prim (.str r._id) ∉ ids.items) →
      deleteMultipleScheduleItems db ids =
        (⟨404, .error "Записи не найдены или уже удалены"⟩, db)) ∧
    (ids.isArray = true → ids.items ≠ [] →
      (∃ r ∈ db, JSVal.prim (.str r._id) ∈ ids.items) →
      deleteMultipleScheduleItems db ids =
        (⟨200, .deleted "Записи успешно удалены"
            (db.countP (fun r => decide (JSVal.prim (.str r._id) ∈ ids.items)))⟩,
          db.filter (fun r => decide (JSVal.prim (.str r._id) ∉ ids.items)))) := by
  cases ids with
  | value v =>
    simp [deleteMultipleScheduleItems, IdsField.isArray, IdsField.items]
  | array items =>
    by_cases hempty : items = []
    · subst hempty
      simp [deleteMultipleScheduleItems, IdsField.isArray, IdsField.items]
    · have hres := deleteMultipleScheduleItems_array db items hempty
      have hzero := schedule_countP_eq_zero db items
      simp only [IdsField.isArray, IdsField.items]
      by_cases hc : db.countP (fun r => decide (JSVal.prim (.str r._id) ∈ items)) = 0
      · have hnone := hzero.1 hc
        have hsame :
            db.filter (fun r => decide (JSVal.prim (.str r._id) ∉ items)) = db := by
          rw [List.filter_eq_self]
          intro r hr
          simpa using hnone r hr
        rw [hres, if_pos hc, hsame]
        refine ⟨?_, ?_, ?_, ?_, ?_⟩
        · constructor
          · intro h; cases h
          · rintro (h | h)
            · cases h
            · exact absurd h hempty
        · exact ⟨fun _ => ⟨trivial, hempty, hnone⟩, fun _ => rfl⟩
        · rintro (h | h)
          · cases h
          · exact absurd h hempty
        · intro _ _ _; rfl
        · rintro _ _ ⟨r, hr, hm⟩
          exact absurd hm (hnone r hr)
      · have hsome : ¬ ∀ r ∈ db, JSVal.prim (.str r._id) ∉ items := fun h => hc (hzero.2 h)
        rw [hres, if_neg hc]
        refine ⟨?_, ?_, ?_, ?_, ?_⟩
        · constructor
          · intro h; cases h
          · rintro (h | h)
            · cases h
            · exact absurd h hempty
        · constructor
          · intro h; cases h
          · rintro ⟨_, _, h⟩
            exact absurd h hsome
        · rintro (h | h)
          · cases h
          · exact absurd h hempty
        · intro _ _ h
          exact absurd h hsome
        · intro _ _ _; rfl

theorem deleteMultipleScheduleItems_classification_witness :
    ((IdsField.array [.prim (.str "l1"), .prim (.str "l2"), .prim (.str "l9")]).isArray = true ∧
      (IdsField.array [.prim (.str "l1"), .prim (.str "l2"), .prim (.str "l9")]).items ≠ [] ∧
      ∃ r ∈ threeLessons, JSVal.prim (.str r._id) ∈
        (IdsField.array [.prim (.str "l1"), .prim (.str "l2"), .prim (.str "l9")]).items) ∧
    deleteMultipleScheduleItems threeLessons
        (.array [.prim (.str "l1"), .prim (.str "l2"), .prim (.str "l9")]) =
      (⟨200, .deleted "Записи успешно удалены" 2⟩, [eveningLesson]) :=
  ⟨⟨rfl, by decide, groupLesson, List.mem_cons_self _ _, by decide⟩,
    (deleteMultipleScheduleItems_classification threeLessons
      (.array [.prim (.str "l1"), .prim (.str "l2"), .prim (.str "l9")])).2.2.2.2
      rfl (by decide) ⟨groupLesson, List.mem_cons_self _ _, by decide⟩⟩

/-! ## Record-level grade and durations -/

/-- What `updateGrade` does: 404 and no change when the id does not resolve; otherwise
the grade becomes the value sent when that value is truthy and `undefined` when it is
falsy. -/
theorem updateGrade_behaviour (db : List HomeworkRecord) (id : String) (grade : JSVal) :
    (Homework.findById db id = none →
      updateGrade db id grade = (⟨404, .error "Домашнее задание не найдено"⟩, db)) ∧
    (∀ r, Homework.findById db id = some r →
      (updateGrade db id grade).1 =
        ⟨200, .homework { r with grade := if grade.truthy then grade else .prim .undefined }⟩ ∧
      Homework.findById (updateGrade db id grade).2 id =
        some { r with grade := if grade.truthy then grade else .prim .undefined }) := by
  constructor
  · intro h
    simp [updateGrade, Homework.findByIdAndUpdate, HomeworkUpdate.wellFormed, h]
  · intro r h
    have hid := homework_findById_id h
    subst hid
    have hm := homework_findById_map
      { r with grade := if grade.truthy then grade else .prim .undefined } h rfl
    simp only [updateGrade, Homework.findByIdAndUpdate, HomeworkUpdate.wellFormed, h,
      HomeworkUpdate.apply, JSVal.orElse, Bool.not_true, Bool.false_eq_true, if_false]
    exact ⟨trivial, hm⟩

/-- Claim C4, evaluated at the grade `0` (and at the empty string): on an existing record
graded 4, `updateGrade` responds 200 and the stored grade is `undefined` afterwards, neither
the value sent nor the old one. -/
theorem updateGrade_zero_clears_grade :
    Homework.findById sampleHomework "h2" = some individualHomework ∧
    individualHomework.grade = .prim (.num 4 0) ∧
    (updateGrade sampleHomework "h2" (.prim (.num 0 0))).1.status = 200 ∧
    (Homework.findById (updateGrade sampleHomework "h2" (.prim (.num 0 0))).2 "h2").map
      (fun r => r.grade) = some (.prim .undefined) ∧
    (Homework.findById (updateGrade sampleHomework "h2" (.prim (.str ""))).2 "h2").map
      (fun r => r.grade) = some (.prim .undefined) :=
  ⟨rfl, rfl, rfl, rfl, rfl⟩

/-- Claim C7, evaluated at the duration `"20 min"`: the guard `duration < 30` is false, so
`addScheduleItem` responds 201 and `updateScheduleItem` responds 200, and the duration
written is `parseInt("20 min")`, that is 20. -/
theorem duration_guard_passes_unparsed_text :
    lessThan (.str "20 min") 30 = false ∧
    (addScheduleItem "l3" [] { student_id := .str "s1", duration := .str "20 min" }).1.status
      = 201 ∧
    (addScheduleItem "l3" [] { student_id := .str "s1", duration := .str "20 min" }).2.map
      (fun r => r.duration) = [.num 20 0] ∧
    (updateScheduleItem (fun _ => none) 8 sampleSchedule "l2"
      { duration := .str "20 min" }).1.status = 200 ∧
    (updateScheduleItem (fun _ => none) 8 sampleSchedule "l2"
      { duration := .str "20 min" }).2.map (fun r => r.duration) = [.num 45 0, .num 20 0] := by
  decide

/-! ## Shape of attendance and grades -/

/-- Claim C10 fails.  `updateGrade` writes the record-level `grade` on a group assignment
that `addHomeworkItem` created; `updateStudentGrade` writes a `grades` entry on an
individual assignment that `addHomeworkItem` created; `updateGroupAttendance` writes a
mapping on a lesson that `addScheduleItem` created with a student and a group at once; and
`updateGroupAttendance` writes the scalar it is sent on a group lesson. -/
theorem shape_invariant_broken :
    (Homework.findById createdGroupHomework "h1").map
        (fun r => (r.student_id.truthy, r.group_id.truthy, r.grade))
      = some (false, true, .prim .undefined) ∧
    (Homework.findById (updateGrade createdGroupHomework "h1" (.prim (.num 5 0))).2 "h1").map
        (fun r => (r.student_id.truthy, r.group_id.truthy, r.grade))
      = some (false, true, .prim (.num 5 0)) ∧
    (Homework.findById createdIndividualHomework "h2").map
        (fun r => (r.student_id.truthy, r.group_id.truthy, r.grades))
      = some (true, false, []) ∧
    (Homework.findById
        (updateStudentGrade createdIndividualHomework "h2" "s1" (.prim (.num 5 0))).2 "h2").map
        (fun r => (r.student_id.truthy, r.group_id.truthy, r.grades))
      = some (true, false, [("s1", .prim (.num 5 0))]) ∧
    (Schedule.findById
        (updateGroupAttendance 9 createdBothTargets "l5" (.obj [("s2", .prim (.bool true))])).2
        "l5").map (fun r => (r.student_id.truthy, r.attendance))
      = some (true, .obj [("s2", .prim (.bool true))]) ∧
    (Schedule.findById
        (updateGroupAttendance 9 createdGroupLesson "l6" (.prim (.bool true))).2 "l6").map
        (fun r => (r.student_id.truthy, r.group_id.truthy, r.attendance))
      = some (false, true, .prim (.bool true)) :=
  ⟨rfl, rfl, rfl, rfl, rfl, rfl⟩

/-- A record of the collection after `save` is the saved one or was there before. -/
theorem schedule_mem_save {db : List ScheduleRecord} {doc r : ScheduleRecord}
    (h : r ∈ Schedule.save db doc) : r = doc ∨ r ∈ db := by
  unfold Schedule.save at h
  rw [List.mem_map] at h
  obtain ⟨x, hx, hxr⟩ := h
  by_cases hc : x._id = doc._id
  · left; simp [hc] at hxr; exact hxr.symm
  · right; simp [hc] at hxr; rw [← hxr]; exact hx

/-- The document found by id is in the collection. -/
theorem schedule_findById_mem {db : List ScheduleRecord} {id : String} {r : ScheduleRecord}
    (h : Schedule.findById db id = some r) : r ∈ db :=
  List.mem_of_find?_eq_some h

/-- Claim C10 as amended.  On a schedule collection in which every record has exactly
one of `student_id` and `group_id` set and an attendance of its target's shape
(individual: `null` or a boolean; group: `null` or a mapping), `addScheduleItem` with exactly
one target, `updateAttendance` with a boolean value and `updateGroupAttendance` with a
mapping leave every stored record with exactly one target and an attendance of its
target's shape. -/
theorem attendance_shape_preserved (now : Nat) (db : List ScheduleRecord) (id : String)
    (hinv : ∀ r ∈ db, r.oneTarget = true ∧ r.shapeValid = true) :
    (∀ (newId : String) (body : AddScheduleBody),
      (body.student_id.truthy != body.group_id.truthy) = true →
      ∀ r ∈ (addScheduleItem newId db body).2, r.oneTarget = true ∧ r.shapeValid = true) ∧
    (∀ (b : Bool) (S : Prim),
      ∀ r ∈ (updateAttendance now db id ⟨.prim (.bool b), S⟩).2,
        r.oneTarget = true ∧ r.shapeValid = true) ∧
    (∀ (M : List (String × JSVal)),
      ∀ r ∈ (updateGroupAttendance now db id (.obj M)).2,
        r.oneTarget = true ∧ r.shapeValid = true) := by
  refine ⟨?_, ?_, ?_⟩
  · intro newId body hone r hr
    unfold addScheduleItem at hr
    by_cases hd : lessThan body.duration 30 = true
    · simp only [hd, if_true] at hr
      exact hinv r hr
    · simp only [hd, Bool.false_eq_true, if_false] at hr
      cases hs : body.student_id.truthy <;> cases hg : body.group_id.truthy <;>
        simp [hs, hg] at hone
      · simp only [hs, hg, Bool.not_false, Bool.not_true, Bool.and_false, Bool.false_eq_true,
          if_false, Schedule.insert, List.mem_append, List.mem_singleton] at hr
        rcases hr with hr | hr
        · exact hinv r hr
        · subst hr
          simp [ScheduleRecord.oneTarget, ScheduleRecord.shapeValid, hs, hg,
            JSVal.isMappingOrNull]
      · simp only [hs, hg, Bool.not_false, Bool.not_true, Bool.false_and, Bool.false_eq_true,
          if_false, if_true, Schedule.insert, List.mem_append, List.mem_singleton] at hr
        rcases hr with hr | hr
        · exact hinv r hr
        · subst hr
          simp [ScheduleRecord.oneTarget, ScheduleRecord.shapeValid, hs, hg,
            JSVal.isFlagOrNull]
  · intro b S r hr
    unfold updateAttendance at hr
    cases hf : Schedule.findById db id with
    | none =>
      simp only [hf] at hr
      exact hinv r hr
    | some r0 =>
      have h0 := hinv r0 (schedule_findById_mem hf)
      simp only [hf] at hr
      cases hs : r0.student_id.truthy
      · cases hgS : (r0.group_id.truthy && S.truthy)
        · simp only [hs, hgS, Bool.false_eq_true, if_false] at hr
          exact hinv r hr
        · simp only [hs, hgS, Bool.false_eq_true, if_false, if_true] at hr
          rcases schedule_mem_save hr with hr | hr
          · subst hr
            have hshape := h0.2
            have hone := h0.1
            simp only [ScheduleRecord.oneTarget, ScheduleRecord.shapeValid, hs,
              Bool.false_eq_true, if_false] at hshape hone ⊢
            refine ⟨hone, ?_⟩
            cases hatt : r0.attendance with
            | prim p =>
              cases p <;> simp [hatt, JSVal.isMappingOrNull] at hshape
              simp [JSVal.truthy, Prim.truthy, JSVal.setProp, JSVal.isMappingOrNull]
            | obj fields =>
              simp [JSVal.truthy, JSVal.setProp, JSVal.isMappingOrNull]
          · exact hinv r hr
      · simp only [hs, if_true] at hr
        rcases schedule_mem_save hr with hr | hr
        · subst hr
          have hone := h0.1
          simp only [ScheduleRecord.oneTarget, ScheduleRecord.shapeValid, hs] at hone ⊢
          exact ⟨hone, by simp [JSVal.isFlagOrNull]⟩
        · exact hinv r hr
  · intro M r hr
    unfold updateGroupAttendance at hr
    cases hf : Schedule.findById db id with
    | none =>
      simp only [hf] at hr
      exact hinv r hr
    | some r0 =>
      have h0 := hinv r0 (schedule_findById_mem hf)
      simp only [hf] at hr
      cases hg : r0.group_id.truthy
      · simp only [hg, Bool.not_false, if_true] at hr
        exact hinv r hr
      · simp only [hg, Bool.not_true, Bool.false_eq_true, if_false] at hr
        rcases schedule_mem_save hr with hr | hr
        · subst hr
          have hone := h0.1
          simp only [ScheduleRecord.oneTarget, hg] at hone ⊢
          refine ⟨hone, ?_⟩
          have hs : r0.student_id.truthy = false := by
            cases hs : r0.student_id.truthy
            · rfl
            · simp [hs] at hone
          simp [ScheduleRecord.shapeValid, hs, JSVal.isMappingOrNull]
        · exact hinv r hr

theorem attendance_shape_preserved_witness :
    (∀ r ∈ sampleSchedule, r.oneTarget = true ∧ r.shapeValid = true) ∧
    ((∀ (newId : String) (body : AddScheduleBody),
      (body.student_id.truthy != body.group_id.truthy) = true →
      ∀ r ∈ (addScheduleItem newId sampleSchedule body).2,
        r.oneTarget = true ∧ r.shapeValid = true) ∧
    (∀ (b : Bool) (S : Prim),
      ∀ r ∈ (updateAttendance 7 sampleSchedule "l1" ⟨.prim (.bool b), S⟩).2,
        r.oneTarget = true ∧ r.shapeValid = true) ∧
    (∀ (M : List (String × JSVal)),
      ∀ r ∈ (updateGroupAttendance 7 sampleSchedule "l1" (.obj M)).2,
        r.oneTarget = true ∧ r.shapeValid = true)) :=
  ⟨by decide, attendance_shape_preserved 7 sampleSchedule "l1" (by decide)⟩

end EasyMath
